import Mathlib

/-!
Verification of the malawi-dhis2-pipeline reconciliation core.

The JavaScript source is shallowly embedded: JS strings are `String`
(a structure around `List Char` in this toolchain), JS numbers are `ℚ`
(the pipeline only manipulates finite decimal values; floating-point
rounding never decides a branch in the embedded code), JS objects used
as string-keyed maps are association lists in insertion order, where
assignment to an existing key keeps its position (`upsert`), matching
the iteration order of JS object keys.  `new Date()` timestamps are
passed as explicit parameters.
-/

/-! ## JS string primitives (modelled on `String.data`) -/

/-- `listIsPre a b` is true when `a` is an initial segment of `b`. -/
def listIsPre {α : Type} [DecidableEq α] : List α → List α → Bool
  | [], _ => true
  | _ :: _, [] => false
  | a :: as, b :: bs => a = b && listIsPre as bs

/-- `listSub a b` is true when `a` occurs contiguously inside `b`
(the semantics of JS `b.includes(a)` on characters). -/
def listSub {α : Type} [DecidableEq α] (a : List α) : List α → Bool
  | [] => a.isEmpty
  | b :: bs => listIsPre a (b :: bs) || listSub a bs

/-- `listIsSuf a b` is true when `a` is a final segment of `b`. -/
def listIsSuf {α : Type} [DecidableEq α] (a b : List α) : Bool :=
  listIsPre a.reverse b.reverse

/-- JS `hay.includes(needle)` on strings. -/
def strIncludes (hay needle : String) : Bool :=
  listSub needle.data hay.data

/-- JS `String.prototype.toLowerCase` (ASCII range, which is all the
source data uses). -/
def lowerStr (s : String) : String :=
  String.mk (s.data.map Char.toLower)

/-- JS `String.prototype.trim` (ASCII whitespace). -/
def trimStr (s : String) : String :=
  String.mk (((s.data.dropWhile Char.isWhitespace).reverse.dropWhile Char.isWhitespace).reverse)

/-- JS `String.prototype.toUpperCase` (ASCII range). -/
def upperStr (s : String) : String :=
  String.mk (s.data.map Char.toUpper)

/-! ## JS dynamic values -/

/-- A JS value as it flows through the pipeline jobs: `undefined`,
a string, or a (finite) number. -/
inductive JVal where
  | undefinedV : JVal
  | str : String → JVal
  | num : ℚ → JVal
deriving DecidableEq, Repr

/-- JS truthiness of a `JVal` ("" and 0 are falsy). -/
def JVal.truthy : JVal → Bool
  | .undefinedV => false
  | .str s => decide (s ≠ "")
  | .num q => decide (q ≠ 0)

/-- JS `a || b`. -/
def jsOr (a b : JVal) : JVal := if a.truthy then a else b

/-- JS integer-valued `Number.prototype.toString`; non-integer rationals
are rendered as `num/den`, a formatting approximation that the embedded
control flow never depends on. -/
def ratToJsString (q : ℚ) : String :=
  if q.den = 1 then toString q.num else toString q

/-- JS `String(v)` / template-literal stringification of a `JVal`. -/
def JVal.toStr : JVal → String
  | .undefinedV => "undefined"
  | .str s => s
  | .num q => ratToJsString q

/-- Reads a run of decimal digits from the front of a character list,
returning the value read, the number of digits, and the rest. -/
def digitsVal : List Char → Nat × Nat × List Char
  | [] => (0, 0, [])
  | c :: rest =>
    if c.isDigit then
      let (v, n, r) := digitsVal rest
      ((c.toNat - 48) * 10 ^ n + v, n + 1, r)
    else (0, 0, c :: rest)

/-- JS `parseFloat` on a string: leading whitespace, optional sign,
decimal digits with an optional fraction; `none` models `NaN`.
(Exponents and `Infinity` are not produced by the source data.) -/
def jsParseFloat (s : String) : Option ℚ :=
  let l := s.data.dropWhile Char.isWhitespace
  let signed : ℚ × List Char :=
    match l with
    | '-' :: r => (-1, r)
    | '+' :: r => (1, r)
    | _ => (1, l)
  let (ip, ni, r1) := digitsVal signed.2
  match r1 with
  | '.' :: r2 =>
    let (fp, nf, _) := digitsVal r2
    if ni = 0 ∧ nf = 0 then none
    else some (signed.1 * ((ip : ℚ) + (fp : ℚ) / (10 : ℚ) ^ nf))
  | _ => if ni = 0 then none else some (signed.1 * (ip : ℚ))

/-- JS `parseFloat` applied to a `JVal` (`none` models `NaN`). -/
def jvParseFloat : JVal → Option ℚ
  | .undefinedV => none
  | .str s => jsParseFloat s
  | .num q => some q

/-- JS `parseFloat(v) || 0`: `NaN` (and `0` itself) becomes `0`. -/
def jsNumOr0 (v : Option ℚ) : ℚ := v.getD 0

/-! ## JS objects as string-keyed maps -/

/-- Assignment `m[k] = v` on a JS object: an existing key keeps its
position in insertion order, a new key is appended at the end. -/
def upsert {α : Type} (k : String) (v : α) : List (String × α) → List (String × α)
  | [] => [(k, v)]
  | (k', v') :: rest => if k' = k then (k, v) :: rest else (k', v') :: upsert k v rest

/-- Property access `m[k]` on a JS object used as a map (keys are
unique by construction, so the first hit is the entry). -/
def lookupIdx {α : Type} : List (String × α) → String → Option α
  | [], _ => none
  | p :: rest, k => if p.1 = k then some p.2 else lookupIdx rest k

/-- List concatenation of a list of lists, in order. -/
def concatAll {α : Type} : List (List α) → List α
  | [] => []
  | l :: ls => l ++ concatAll ls

/-! ## `findFuzzyMatch` (generate-dhis2-payload.js, also verbatim in the
part_003 payload job) -/

/-- Separator class of the split regex `[\s\-_]+` (ASCII whitespace,
hyphen, underscore). -/
def isSep (c : Char) : Bool := c.isWhitespace || c = '-' || c = '_'

/-- JS `s.split(/[\s\-_]+/)`: splits at maximal separator runs, keeping
empty segments at the ends (a run is extended by one-character
lookahead, so the recursion stays structural). -/
def splitSegs : List Char → List Char → List (List Char)
  | [], acc => [acc.reverse]
  | [c], acc => if isSep c then [acc.reverse, []] else [(c :: acc).reverse]
  | c :: d :: rest, acc =>
    if isSep c then
      if isSep d then splitSegs (d :: rest) acc
      else acc.reverse :: splitSegs (d :: rest) []
    else splitSegs (d :: rest) (c :: acc)

/-- `target.toLowerCase().split(/[\s\-_]+/)` as a list of words. -/
def wordsOf (s : String) : List (List Char) :=
  splitSegs (lowerStr s).data []

/-- Score contributed by one (targetWord, candidateWord) pair:
+2 for an exact word match, +1 when one word contains the other. -/
def pairScore (t c : List Char) : Nat :=
  if t = c then 2
  else if listSub c t || listSub t c then 1
  else 0

/-- Word-overlap score: the sum of `pairScore` over all pairs. -/
def overlapScore (ts cs : List (List Char)) : Nat :=
  (ts.map (fun t => (cs.map (fun c => pairScore t c)).sum)).sum

/-- Normalized fuzzy score of a candidate against the target:
`score / max(targetWords.length, candidateWords.length)`. -/
def nscore (target cand : String) : ℚ :=
  (overlapScore (wordsOf target) (wordsOf cand) : ℚ) /
    (max (wordsOf target).length (wordsOf cand).length : ℚ)

/-- The candidate loop of `findFuzzyMatch`: keeps the best candidate so
far, replacing it only when a strictly larger normalized score above the
0.5 threshold is seen. -/
def fuzzyFold (t : String) : List String → Option String × ℚ → Option String × ℚ
  | [], acc => acc
  | c :: rest, acc =>
    let ns := nscore t c
    if acc.2 < ns ∧ (1 / 2 : ℚ) < ns then fuzzyFold t rest (some c, ns)
    else fuzzyFold t rest acc

/-- `findFuzzyMatch(target, candidates)` from generate-dhis2-payload.js. -/
def findFuzzyMatch (target : String) (candidates : List String) : Option String :=
  (fuzzyFold target candidates (none, 0)).1

/-! ## generatePayload (generate-dhis2-payload.js) -/

/-- One row of a combined SFTP sheet (`inputData.sheets[...].data`).
`indicator` models `row["Indicator"] || row["indicator"]` (empty string
when the fallback chain is falsy), `value` models
`row["Value"] || row["value"]`, `site` models `row["Site"] || row["site"]`. -/
structure SheetRow where
  indicator : String
  value : JVal
  site : String
deriving DecidableEq, Repr

/-- One row of Google Sheets `processedData`. `indicator` models
`row["Indicator"] || row["Indicator Name"] || row["indicator"]`,
`value` models `row["Value"] || row["Count"] || row["Total"] || row["value"]`. -/
structure GSRow where
  indicator : String
  value : JVal
deriving DecidableEq, Repr

/-- One entry of `file.indicators` in the raw-Excel fallback branch. -/
structure RIndicator where
  indicator : String
  value : JVal
  rowIndex : Nat
deriving DecidableEq, Repr

/-- One entry of `file.queries` or `file.sites` in the raw-Excel
fallback branch (both shapes carry site, indicator and value). -/
structure SiteIndicatorRow where
  site : String
  indicator : String
  value : JVal
deriving DecidableEq, Repr

/-- One entry of `inputData.processedFiles` in the raw-Excel branch. -/
structure RawFile where
  fileName : String
  indicators : Option (List RIndicator)
  queries : Option (List SiteIndicatorRow)
  sites : Option (List SiteIndicatorRow)
deriving DecidableEq, Repr

/-- The mutually exclusive input shapes `generatePayload` dispatches on:
`inputData.source === "sftp_excel"` (with its `sheets`), then
`inputData.processedData`, then `inputData.processedFiles`, and
otherwise no recognized data. -/
inductive InputData where
  | sftpExcel (sheets : List (String × List SheetRow))
  | googleSheets (rows : List GSRow)
  | rawExcel (files : List RawFile)
  | noData
deriving Repr

/-- The guard `indicatorName && value !== undefined && value !== ""` of
the SFTP-sheets branch. -/
def sheetRowKept (r : SheetRow) : Bool :=
  r.indicator ≠ "" && r.value ≠ JVal.undefinedV && r.value ≠ JVal.str ""

/-- The index key of an SFTP-sheet row:
`(site ? site + "_" + indicatorName : indicatorName).trim()`. -/
def sheetRowKey (r : SheetRow) : String :=
  trimStr (if r.site ≠ "" then r.site ++ "_" ++ r.indicator else r.indicator)

/-- The stored numeric value of a row: `parseFloat(value) || 0`. -/
def sheetRowVal (r : SheetRow) : ℚ := jsNumOr0 (jvParseFloat r.value)

/-- Index accumulation over the flattened SFTP-sheet rows
(`indicatorValues[indicatorKey.trim()] = numericValue`). -/
def indexSheetRows (rows : List SheetRow) : List (String × ℚ) :=
  rows.foldl
    (fun acc r => if sheetRowKept r then upsert (sheetRowKey r) (sheetRowVal r) acc else acc)
    []

/-- Index accumulation over Google Sheets rows
(`indicatorValues[cleanIndicatorName] = numericValue`). -/
def indexGSRows (rows : List GSRow) : List (String × ℚ) :=
  rows.foldl
    (fun acc r =>
      if r.indicator ≠ "" && r.value ≠ JVal.undefinedV && r.value ≠ JVal.str "" then
        upsert (trimStr r.indicator) (jsNumOr0 (jvParseFloat r.value)) acc
      else acc)
    []

/-- Index key of a raw-Excel `indicators` entry:
`(indicator.indicator || fileName + "_" + rowIndex).trim()`. -/
def rIndicatorKey (fileName : String) (i : RIndicator) : String :=
  trimStr (if i.indicator ≠ "" then i.indicator else fileName ++ "_" ++ toString i.rowIndex)

/-- Index accumulation for one raw-Excel file: `indicators`, then
`queries`, then `sites`, each entry stored unconditionally. -/
def indexRawFile (acc : List (String × ℚ)) (f : RawFile) : List (String × ℚ) :=
  let acc1 :=
    match f.indicators with
    | none => acc
    | some inds =>
      inds.foldl
        (fun a i => upsert (rIndicatorKey f.fileName i) (jsNumOr0 (jvParseFloat i.value)) a)
        acc
  let acc2 :=
    match f.queries with
    | none => acc1
    | some qs =>
      qs.foldl
        (fun a q =>
          upsert (trimStr (q.site ++ "_" ++ q.indicator)) (jsNumOr0 (jvParseFloat q.value)) a)
        acc1
  match f.sites with
  | none => acc2
  | some ss =>
    ss.foldl
      (fun a s =>
        upsert (trimStr (s.site ++ "_" ++ s.indicator)) (jsNumOr0 (jvParseFloat s.value)) a)
      acc2

/-- The `indicatorValues` object built by `generatePayload` from the
input data, by branch. -/
def buildIndex : InputData → List (String × ℚ)
  | .sftpExcel sheets => indexSheetRows (concatAll (sheets.map Prod.snd))
  | .googleSheets rows => indexGSRows rows
  | .rawExcel files => files.foldl indexRawFile []
  | .noData => []

/-- The `dataSource` label set by each branch. -/
def dataSourceOf : InputData → String
  | .sftpExcel _ => "SFTP Excel"
  | .googleSheets _ => "Google Sheets"
  | .rawExcel _ => "Raw Excel"
  | .noData => "unknown"

/-- The report configuration destructured by `generatePayload`;
`mapping` is `Object.entries(hivStagesReportMapping)` in insertion order. -/
structure ReportConfig where
  catAttrCombo : String
  dataSet : String
  period : String
  orgUnit : String
  mapping : List (String × String)
deriving DecidableEq, Repr

/-- One element of the generated `dataValues` array. -/
structure DataValue where
  dataElement : String
  period : String
  orgUnit : String
  categoryOptionCombo : String
  attributeOptionCombo : String
  value : ℚ
  matchType : String
  originalIndicator : String
deriving DecidableEq, Repr

/-- The `matchingStats` tally (`defaultValues` is declared by the source
but never incremented). -/
structure MatchStats where
  exactMatches : Nat
  partialMatches : Nat
  noMatches : Nat
  defaultValues : Nat
deriving DecidableEq, Repr

/-- The generated payload object. -/
structure Payload where
  dataSet : String
  period : String
  orgUnit : String
  dataValues : List DataValue
  dataSource : String
  generatedAt : String
  matchingStats : MatchStats
deriving DecidableEq, Repr

/-- Strategy 2 predicate: `key.toLowerCase() === indicatorKey.toLowerCase()`. -/
def ciPred (k : String) (p : String × ℚ) : Bool :=
  lowerStr p.1 == lowerStr k

/-- Strategy 3 predicate: either lower-cased key contains the other. -/
def partialPred (k : String) (p : String × ℚ) : Bool :=
  strIncludes (lowerStr p.1) (lowerStr k) || strIncludes (lowerStr k) (lowerStr p.1)

/-- The four-strategy cascade applied to one vocabulary key, returning
`(value, matchType)`; defaulting to `(0, "default")` when every strategy
fails. -/
def matchOne (idx : List (String × ℚ)) (k : String) : ℚ × String :=
  match lookupIdx idx k with
  | some v => (v, "exact")
  | none =>
    match idx.find? (ciPred k) with
    | some p => (p.2, "exact_case_insensitive")
    | none =>
      match idx.find? (partialPred k) with
      | some p => (p.2, "partial")
      | none =>
        match findFuzzyMatch k (idx.map Prod.fst) with
        | some c => ((lookupIdx idx c).getD 0, "fuzzy")
        | none => (0, "default")

/-- The `dataValues` element pushed for one vocabulary entry. -/
def mkDataValue (cfg : ReportConfig) (idx : List (String × ℚ)) (p : String × String) :
    DataValue :=
  { dataElement := p.2
    period := cfg.period
    orgUnit := cfg.orgUnit
    categoryOptionCombo := cfg.catAttrCombo
    attributeOptionCombo := cfg.catAttrCombo
    value := (matchOne idx p.1).1
    matchType := (matchOne idx p.1).2
    originalIndicator := p.1 }

/-- The `dataValues` array: one pushed element per entry of
`Object.entries(hivStagesReportMapping)`. -/
def buildDataValues (cfg : ReportConfig) (idx : List (String × ℚ)) : List DataValue :=
  cfg.mapping.map (mkDataValue cfg idx)

/-- The `matchingStats` accumulated alongside the matching loop. -/
def buildStats (cfg : ReportConfig) (idx : List (String × ℚ)) : MatchStats :=
  let mts := cfg.mapping.map (fun p => (matchOne idx p.1).2)
  { exactMatches := mts.countP (fun m => m == "exact" || m == "exact_case_insensitive")
    partialMatches := mts.countP (fun m => m == "partial" || m == "fuzzy")
    noMatches := mts.countP (fun m => m == "default")
    defaultValues := 0 }

/-- `generatePayload(inputData, reportConfig)`; the wall-clock reading
`new Date().toISOString()` is the explicit parameter `now`. -/
def generatePayload (inputData : InputData) (cfg : ReportConfig) (now : String) : Payload :=
  let idx := buildIndex inputData
  { dataSet := cfg.dataSet
    period := cfg.period
    orgUnit := cfg.orgUnit
    dataValues := buildDataValues cfg idx
    dataSource := dataSourceOf inputData
    generatedAt := now
    matchingStats := buildStats cfg idx }

/-! ## generatePayload of the part_003 payload job (processed-Excel input) -/

/-- One entry of `file.excelData.indicators` in the part_003 payload job. -/
structure P3Indicator where
  indicator : String
  value : JVal
deriving DecidableEq, Repr

/-- One entry of `file.excelData.queries` in the part_003 payload job. -/
structure P3Query where
  site : String
  indicator : String
  value : JVal
deriving DecidableEq, Repr

/-- One element of `processedFiles` in the part_003 payload job. -/
structure P3File where
  fileName : String
  indicators : Option (List P3Indicator)
  queries : Option (List P3Query)
deriving DecidableEq, Repr

/-- The `indicators` accumulation of the part_003 payload job: the store
is guarded by `if (!indicatorValues[key] || indicatorValues[key] < value)`,
so an existing entry is overwritten only when it is falsy (0) or smaller
than the incoming value. -/
def p3IndicatorStep (acc : List (String × ℚ)) (i : P3Indicator) : List (String × ℚ) :=
  let key := trimStr i.indicator
  let value := jsNumOr0 (jvParseFloat i.value)
  match lookupIdx acc key with
  | none => upsert key value acc
  | some cur => if cur = 0 ∨ cur < value then upsert key value acc else acc

/-- The `indicatorValues` object built by the part_003 payload job. -/
def p3Index (files : List P3File) : List (String × ℚ) :=
  files.foldl
    (fun acc f =>
      let acc1 :=
        match f.indicators with
        | none => acc
        | some inds => inds.foldl p3IndicatorStep acc
      match f.queries with
      | none => acc1
      | some qs =>
        qs.foldl
          (fun a q =>
            upsert (trimStr (q.site ++ "_" ++ q.indicator)) (jsNumOr0 (jvParseFloat q.value)) a)
          acc1)
    []

/-! ## check-sftp-files (part_003 cron job): classification of an SFTP listing -/

/-- One entry of the SFTP directory listing (`state.data`). -/
structure ListedFile where
  name : String
  ftype : String
  size : Int
  modifiedTime : String
deriving DecidableEq, Repr

/-- The `fileInfo` object built per supported file. -/
structure FileInfo where
  name : String
  size : Int
  modifiedTime : String
  path : String
deriving DecidableEq, Repr

/-- `SFTP_DIRECTORY` from the job configuration. -/
def sftpDirectory : String := "/uploads/hiv-indicators/"

/-- `SUPPORTED_EXTENSIONS` from the job configuration. -/
def supportedExtensions : List String := [".xlsx", ".xls"]

/-- `file.name.toLowerCase().substring(file.name.lastIndexOf("."))`:
the lower-cased tail starting at the last dot, or the whole lower-cased
name when there is no dot (JS `substring` clamps `-1` to `0`). -/
def extOf (name : String) : String :=
  let l := (lowerStr name).data
  let afterRev := l.reverse.takeWhile (fun c => c ≠ '.')
  if afterRev.length = l.length then String.mk l
  else String.mk ('.' :: afterRev.reverse)

/-- Whether the extension is in `SUPPORTED_EXTENSIONS`. -/
def supportedName (name : String) : Bool :=
  supportedExtensions.contains (extOf name)

/-- Whether a listing entry enters the body of the classification loop:
`file.type === "file"` and a supported extension. -/
def passesFilter (f : ListedFile) : Bool :=
  f.ftype == "file" && supportedName f.name

/-- The `fileInfo` record built for a listing entry. -/
def fileInfoOf (f : ListedFile) : FileInfo :=
  { name := f.name, size := f.size, modifiedTime := f.modifiedTime
    path := sftpDirectory ++ f.name }

/-- A persisted file-tracking entry (`state.fileTracking[name]`), as
written by the update-file-tracking job; the classification loop reads
only `size` and `modifiedTime`.  Timestamps are epoch milliseconds. -/
structure TrackRec where
  name : String
  size : Int
  modifiedTime : String
  path : String
  processedAt : Option Nat := none
  lastChecked : Option Nat := none
  status : String := ""
  uploadStatus : Option String := none
  dhis2Imported : Option Int := none
  dhis2Updated : Option Int := none
  dhis2Ignored : Option Int := none
deriving DecidableEq, Repr

/-- The new-or-modified test of the classification loop:
`!previousFile || previousFile.modifiedTime !== fileInfo.modifiedTime ||
previousFile.size !== fileInfo.size`. -/
def isNewOrChanged (prev : List (String × TrackRec)) (f : ListedFile) : Bool :=
  match lookupIdx prev f.name with
  | none => true
  | some p => p.modifiedTime != f.modifiedTime || p.size != f.size

/-- The `newFiles` array accumulated by the classification loop, in
listing order. -/
def newFilesOf (prev : List (String × TrackRec)) : List ListedFile → List FileInfo
  | [] => []
  | f :: rest =>
    if passesFilter f && isNewOrChanged prev f then fileInfoOf f :: newFilesOf prev rest
    else newFilesOf prev rest

/-- The `currentFiles` object accumulated by the classification loop
(`currentFiles[fileKey] = fileInfo`). -/
def currentFilesOf (listing : List ListedFile) : List (String × FileInfo) :=
  listing.foldl
    (fun acc f => if passesFilter f then upsert f.name (fileInfoOf f) acc else acc)
    []

/-! ## update-file-tracking job -/

/-- `state.uploadSummary` as read by the tracking update
(optional fields accessed through `?.` and `||` defaults). -/
structure USummary where
  status : Option String := none
  imported : Option Int := none
  updated : Option Int := none
  ignored : Option Int := none
deriving DecidableEq, Repr

/-- 30 days in milliseconds: the retention horizon of the cleanup pass
(`thirtyDaysAgo.setDate(thirtyDaysAgo.getDate() - 30)`, modelled as a
fixed-length 30-day interval). -/
def retentionMs : Nat := 2592000000

/-- `state.uploadSummary?.status || "unknown"`. -/
def uploadStatusOf (us : Option USummary) : String :=
  match us with
  | some u => match u.status with
    | some s => if s = "" then "unknown" else s
    | none => "unknown"
  | none => "unknown"

/-- `state.uploadSummary?.field || 0`. -/
def summaryField (get : USummary → Option Int) (us : Option USummary) : Int :=
  match us with
  | some u => (get u).getD 0
  | none => 0

/-- The `trackingInfo` record committed for a successfully processed
file (`processedAt: new Date().toISOString()` becomes `now`). -/
def trackingInfoOf (us : Option USummary) (now : Nat) (f : FileInfo) : TrackRec :=
  { name := f.name, size := f.size, modifiedTime := f.modifiedTime, path := f.path
    processedAt := some now
    status := "processed"
    uploadStatus := some (uploadStatusOf us)
    dhis2Imported := some (summaryField USummary.imported us)
    dhis2Updated := some (summaryField USummary.updated us)
    dhis2Ignored := some (summaryField USummary.ignored us) }

/-- The "checked" entry inserted for a listed-but-unprocessed file
(`{...fileInfo, lastChecked: now, status: "checked"}`). -/
def checkedInfoOf (now : Nat) (f : FileInfo) : TrackRec :=
  { name := f.name, size := f.size, modifiedTime := f.modifiedTime, path := f.path
    lastChecked := some now
    status := "checked" }

/-- The effective date of a tracking entry for the cleanup pass:
`new Date(fileInfo.processedAt || fileInfo.lastChecked || 0)`. -/
def trackDate (r : TrackRec) : Nat :=
  match r.processedAt with
  | some t => t
  | none => r.lastChecked.getD 0

/-- The update-file-tracking job, reduced to the file-tracking map it
returns: guard on `uploadCompleted`, commit each processed file, insert
"checked" entries for listed files without an entry, then prune entries
older than the retention horizon. -/
def updateFileTracking (uploadCompleted : Bool) (fileTracking : List (String × TrackRec))
    (processedFiles : List FileInfo) (currentFileList : List (String × FileInfo))
    (us : Option USummary) (now : Nat) : List (String × TrackRec) :=
  if !uploadCompleted then fileTracking
  else
    let afterProcessed :=
      processedFiles.foldl
        (fun acc f => upsert f.name (trackingInfoOf us now f) acc)
        fileTracking
    let afterChecked :=
      currentFileList.foldl
        (fun acc p =>
          match lookupIdx acc p.1 with
          | some _ => acc
          | none => upsert p.1 (checkedInfoOf now p.2) acc)
        afterProcessed
    afterChecked.filter (fun p => decide (now - retentionMs ≤ trackDate p.2))

/-! ## process-excel-data: parseDirectQueries and validateExcelData -/

/-- A parsed direct-query row as produced by `parseDirectQueries`. -/
structure QueryRow where
  site : String
  indicator : String
  value : ℚ
  period : JVal
  orgUnit : JVal
  target : Option ℚ
  comment : Option JVal
  rowIndex : Nat
deriving DecidableEq, Repr

/-- The `headerMap` object: column index per canonical field. -/
structure HeaderMap where
  site : Option Nat := none
  indicator : Option Nat := none
  value : Option Nat := none
  period : Option Nat := none
  orgUnit : Option Nat := none
  target : Option Nat := none
  comment : Option Nat := none
deriving DecidableEq, Repr

/-- Unanchored case-insensitive test of the header-row detection: the
lower-cased cell contains one of the keyword alternatives of the three
regexes. -/
def commonHeaderTest (h : String) : Bool :=
  ["facility", "site", "query", "indicator", "value", "result", "count", "total",
   "period", "month", "quarter", "year", "date",
   "org", "unit", "district", "region"].any (fun w => strIncludes h w)

/-- `row.some(cell => cell && typeof cell === "string" && ...)`. -/
def hasCommonHeaders (row : List JVal) : Bool :=
  row.any (fun c =>
    match c with
    | .str s => decide (s ≠ "") && commonHeaderTest (lowerStr s)
    | _ => false)

/-- The header-row scan over the first 10 rows, defaulting to row 0. -/
def findHeaderIdx (rawData : List (List JVal)) : Nat :=
  match (rawData.take 10).findIdx? hasCommonHeaders with
  | some i => i
  | none => 0

/-- Full match against `^pre.*post$`. -/
def dotStarMatch (pre post s : String) : Bool :=
  listIsPre pre.data s.data && listIsSuf post.data (s.data.drop pre.data.length)

/-- `^(site|facility|health.*facility|clinic|hospital)$`. -/
def anchorSite (h : String) : Bool :=
  h == "site" || h == "facility" || dotStarMatch "health" "facility" h ||
    h == "clinic" || h == "hospital"

/-- `^(query|indicator|measure|metric|data.*element)$`. -/
def anchorIndicator (h : String) : Bool :=
  h == "query" || h == "indicator" || h == "measure" || h == "metric" ||
    dotStarMatch "data" "element" h

/-- `^(value|result|count|total|number|amount)$`. -/
def anchorValue (h : String) : Bool :=
  h == "value" || h == "result" || h == "count" || h == "total" ||
    h == "number" || h == "amount"

/-- `^(period|month|quarter|year|date|time)$`. -/
def anchorPeriod (h : String) : Bool :=
  h == "period" || h == "month" || h == "quarter" || h == "year" ||
    h == "date" || h == "time"

/-- `^(org.*unit|district|region|area)$`. -/
def anchorOrgUnit (h : String) : Bool :=
  dotStarMatch "org" "unit" h || h == "district" || h == "region" || h == "area"

/-- `^(target|goal|expected)$`. -/
def anchorTarget (h : String) : Bool :=
  h == "target" || h == "goal" || h == "expected"

/-- `^(comment|note|remark|description)$`. -/
def anchorComment (h : String) : Bool :=
  h == "comment" || h == "note" || h == "remark" || h == "description"

/-- JS falsiness of a stored column index: absent, or column 0
(`!headerMap.site` is true for index 0). -/
def falsyIdx : Option Nat → Bool
  | none => true
  | some 0 => true
  | some _ => false

/-- One iteration of the header-mapping loop: the anchored
if/else-if chain, then the three flexible fallback tests. -/
def updateHeaderMap (hm : HeaderMap) (i : Nat) (cell : JVal) : HeaderMap :=
  if !cell.truthy then hm
  else
    let h := trimStr (lowerStr cell.toStr)
    let hm1 :=
      if anchorSite h then { hm with site := some i }
      else if anchorIndicator h then { hm with indicator := some i }
      else if anchorValue h then { hm with value := some i }
      else if anchorPeriod h then { hm with period := some i }
      else if anchorOrgUnit h then { hm with orgUnit := some i }
      else if anchorTarget h then { hm with target := some i }
      else if anchorComment h then { hm with comment := some i }
      else hm
    let hm2 :=
      if falsyIdx hm1.site &&
          (strIncludes h "facility" || strIncludes h "site" || strIncludes h "clinic") then
        { hm1 with site := some i }
      else hm1
    let hm3 :=
      if falsyIdx hm2.indicator &&
          (strIncludes h "indicator" || strIncludes h "query" || strIncludes h "measure") then
        { hm2 with indicator := some i }
      else hm2
    if falsyIdx hm3.value &&
        (strIncludes h "value" || strIncludes h "count" || strIncludes h "total" ||
          strIncludes h "result") then
      { hm3 with value := some i }
    else hm3

/-- The header-to-field map built from the header row. -/
def buildHeaderMap (headers : List JVal) : HeaderMap :=
  (headers.enum).foldl (fun hm p => updateHeaderMap hm p.1 p.2) {}

/-- `row[i]` for an optional column index (`row[undefined]` is
`undefined`). -/
def getCell (row : List JVal) (o : Option Nat) : JVal :=
  match o with
  | some i => row.getD i .undefinedV
  | none => .undefinedV

/-- `generateOrgUnit(siteName)`: non-alphanumeric characters become "_",
upper-cased, truncated to 10 characters, prefixed with "MW_". -/
def generateOrgUnit (site : JVal) : String :=
  if !site.truthy then "MW_DEFAULT"
  else
    "MW_" ++ String.mk
      (((site.toStr.data.map (fun c => if c.isAlphanum then c else '_')).map
          Char.toUpper).take 10)

/-- `parseFloat(cell) || null`: `NaN` and `0` both become `null`. -/
def parseOrNull (v : JVal) : Option ℚ :=
  match jvParseFloat v with
  | some q => if q = 0 then none else some q
  | none => none

/-- `cell || null`. -/
def cellOrNull (v : JVal) : Option JVal :=
  if v.truthy then some v else none

/-- The per-row body of the direct-queries mapping: `none` models the
`return null` paths (empty row array, or blank site/indicator after
trimming). -/
def mkQueryRow (hm : HeaderMap) (i : Nat) (row : List JVal) : Option QueryRow :=
  if row.length = 0 then none
  else
    let site := jsOr (getCell row hm.site)
      (jsOr (row.getD 0 .undefinedV) (.str ("Site_" ++ toString (i + 1))))
    let indicator := jsOr (getCell row hm.indicator)
      (jsOr (row.getD 1 .undefinedV) (.str ("Query_" ++ toString (i + 1))))
    let value := jvParseFloat (jsOr (getCell row hm.value) (jsOr (row.getD 2 .undefinedV) (.num 0)))
    if !site.truthy || trimStr site.toStr = "" ||
        !indicator.truthy || trimStr indicator.toStr = "" then none
    else
      some
        { site := trimStr site.toStr
          indicator := trimStr indicator.toStr
          value := value.getD 0
          period := jsOr (getCell row hm.period) (.str "2025Q1")
          orgUnit := jsOr (getCell row hm.orgUnit) (.str (generateOrgUnit site))
          target := parseOrNull (getCell row hm.target)
          comment := cellOrNull (getCell row hm.comment)
          rowIndex := i + 1 }

/-- `parseDirectQueries(workbook)` on the sheet rows delivered by
`sheet_to_json(..., {header: 1})`: the empty-sheet early return, the
header scan, the header map, and the row mapping with null rows
filtered out. -/
def parseDirectQueries (rawData : List (List JVal)) : List QueryRow :=
  if rawData.length = 0 then []
  else
    let hIdx := findHeaderIdx rawData
    let headers := rawData.getD hIdx []
    let dataRows := rawData.drop (hIdx + 1)
    let hm := buildHeaderMap headers
    (dataRows.enum).filterMap (fun p => mkQueryRow hm p.1 p.2)

/-- The validation result of `validateExcelData`. -/
structure Validation where
  isValid : Bool
  warnings : List String
  errors : List String
deriving DecidableEq, Repr

/-- `!item[column] && item[column] !== 0` for the direct-queries schema
columns (site and indicator are strings, value a number, period a raw
cell value). -/
def requiredColumnMissing (item : QueryRow) : String → Bool
  | "site" => item.site == ""
  | "indicator" => item.indicator == ""
  | "value" => false
  | "period" => !item.period.truthy && item.period != JVal.num 0
  | _ => false

/-- The warnings contributed by one row: one per missing required
column of the direct-queries schema, then the numeric check
`item.value && isNaN(parseFloat(item.value))` (never true for the
already-numeric `value`). -/
def rowWarnings (i : Nat) (item : QueryRow) : List String :=
  (["site", "indicator", "value", "period"].filterMap fun col =>
    if requiredColumnMissing item col then
      some ("Missing required field '" ++ col ++ "' in row " ++ toString (i + 1))
    else none) ++
  (if item.value ≠ 0 && (jvParseFloat (JVal.num item.value)).isNone then
    ["Invalid numeric value '" ++ ratToJsString item.value ++ "' in row " ++ toString (i + 1)]
  else [])

/-- `validateExcelData(data, "direct_queries")`: flags an empty data
array as an error, then accumulates per-row warnings. -/
def validateExcelData (queries : List QueryRow) : Validation :=
  let base : Validation :=
    if queries.length = 0 then
      { isValid := false, warnings := [], errors := ["No data found in Excel file"] }
    else
      { isValid := true, warnings := [], errors := [] }
  { base with warnings := concatAll ((queries.enum).map (fun p => rowWarnings p.1 p.2)) }

/-- The direct-queries path of `parseExcelData` (file opening aside):
parse, then validate. -/
structure DirectQueriesResult where
  queries : List QueryRow
  validation : Validation
deriving DecidableEq, Repr

/-- Parse-and-validate for a direct-queries workbook. -/
def processDirectQueries (rawData : List (List JVal)) : DirectQueriesResult :=
  let qs := parseDirectQueries rawData
  { queries := qs, validation := validateExcelData qs }

/-! ## Derived predicates and sample data used by the statements -/

/-- All four matching strategies fail for a vocabulary key: no exact
key, no case-insensitive key, no substring candidate, no fuzzy
candidate. -/
def noStrategyMatch (idx : List (String × ℚ)) (k : String) : Bool :=
  (lookupIdx idx k).isNone && (idx.find? (ciPred k)).isNone &&
    (idx.find? (partialPred k)).isNone && (findFuzzyMatch k (idx.map Prod.fst)).isNone

/-- The last SFTP-sheet row, in input order, that passes the store
guard and whose index key is `k`. -/
def lastMatch (k : String) : List SheetRow → Option SheetRow
  | [] => none
  | r :: rest =>
    match lastMatch k rest with
    | some r' => some r'
    | none => if sheetRowKept r && sheetRowKey r == k then some r else none

/-- A small report configuration used by concrete instantiations
(an excerpt of the default `hivStagesReportMapping`). -/
def sampleCfg : ReportConfig :=
  { catAttrCombo := "HllvX50cXC0"
    dataSet := "BfMAe6Itzgt"
    period := "202506"
    orgUnit := "rXoaHGAXWy9"
    mapping := [("TX_NEW", "dwEq7wi6nXV")] }

/-- A site-prefixed SFTP-sheet record whose indicator name equals the
vocabulary key "TX_NEW". -/
def sitePrefixedRow : SheetRow :=
  { indicator := "TX_NEW", value := .num 40, site := "SiteA" }

/-- An SFTP-sheet record matching concrete scenario 1 of the spec. -/
def scenario1Row : SheetRow :=
  { indicator := "TX_NEW", value := .num 85, site := "" }

/-- Two part_003 indicator entries with the same key: the later (most
recent) one carries value 5, the earlier one 7. -/
def dupIndicatorFiles : List P3File :=
  [{ fileName := "f1"
     indicators := some [{ indicator := "K", value := .num 7 }, { indicator := "K", value := .num 5 }]
     queries := none }]

/-- Tracking state of concrete scenario 5: "a.xlsx" known with size 100
and modification time "T1". -/
def knownAxlsx : List (String × TrackRec) :=
  [("a.xlsx",
    { name := "a.xlsx", size := 100, modifiedTime := "T1"
      path := "/uploads/hiv-indicators/a.xlsx" })]

/-- Listing entry of concrete scenario 5 after the size change. -/
def grownAxlsx : ListedFile :=
  { name := "a.xlsx", ftype := "file", size := 150, modifiedTime := "T1" }

/-- A processed file committed by the tracking update in the concrete
round-trip instantiation. -/
def processedBxlsx : FileInfo :=
  { name := "b.xlsx", size := 200, modifiedTime := "T2"
    path := "/uploads/hiv-indicators/b.xlsx" }

/-- The unchanged re-listing of `processedBxlsx`. -/
def relistedBxlsx : ListedFile :=
  { name := "b.xlsx", ftype := "file", size := 200, modifiedTime := "T2" }

/-- A supported listing entry used by the filter-invariant witness. -/
def listedCxlsx : ListedFile :=
  { name := "C.XLSX", ftype := "file", size := 10, modifiedTime := "T3" }

/-! # Helper lemmas -/

theorem lookupIdx_upsert_self {α : Type} (m : List (String × α)) (k : String) (v : α) :
    lookupIdx (upsert k v m) k = some v := by
  induction m with
  | nil => simp [upsert, lookupIdx]
  | cons p rest ih =>
    by_cases h : p.1 = k
    · simp [upsert, h, lookupIdx]
    · simp [upsert, h, lookupIdx, ih]

theorem lookupIdx_upsert_ne {α : Type} (m : List (String × α)) (k k' : String) (v : α)
    (h : k ≠ k') : lookupIdx (upsert k v m) k' = lookupIdx m k' := by
  induction m with
  | nil => simp [upsert, lookupIdx, h]
  | cons p rest ih =>
    by_cases hp : p.1 = k
    · simp [upsert, hp, lookupIdx, h]
    · simp [upsert, hp, lookupIdx, ih]

theorem mem_upsert {α : Type} {m : List (String × α)} {k : String} {v : α}
    {p : String × α} (h : p ∈ upsert k v m) : p = (k, v) ∨ p ∈ m := by
  induction m with
  | nil => simpa [upsert] using h
  | cons q rest ih =>
    by_cases hq : q.1 = k
    · simp only [upsert, hq, if_pos rfl] at h
      rcases List.mem_cons.mp h with h1 | h1
      · exact Or.inl h1
      · exact Or.inr (List.mem_cons_of_mem _ h1)
    · simp only [upsert, if_neg hq] at h
      rcases List.mem_cons.mp h with h1 | h1
      · exact Or.inr (h1 ▸ List.mem_cons_self _ _)
      · rcases ih h1 with h2 | h2
        · exact Or.inl h2
        · exact Or.inr (List.mem_cons_of_mem _ h2)

theorem fuzzyFold_char (t : String) :
    ∀ (cs : List String) (best : Option String) (b : ℚ),
      (fuzzyFold t cs (best, b) = (best, b) ∧ ∀ x ∈ cs, nscore t x ≤ max b (1 / 2))
      ∨ (∃ l1 c l2, cs = l1 ++ c :: l2 ∧ fuzzyFold t cs (best, b) = (some c, nscore t c) ∧
          (1 / 2 : ℚ) < nscore t c ∧ b < nscore t c ∧
          (∀ x ∈ l1, nscore t x < nscore t c) ∧ (∀ x ∈ l2, nscore t x ≤ nscore t c)) := by
  intro cs
  induction cs with
  | nil => exact fun best b => Or.inl ⟨rfl, by simp⟩
  | cons c rest ih =>
    intro best b
    by_cases hcond : b < nscore t c ∧ (1 / 2 : ℚ) < nscore t c
    · have hstep : fuzzyFold t (c :: rest) (best, b) = fuzzyFold t rest (some c, nscore t c) := by
        show (if b < nscore t c ∧ (1 / 2 : ℚ) < nscore t c then
            fuzzyFold t rest (some c, nscore t c)
          else fuzzyFold t rest (best, b)) = fuzzyFold t rest (some c, nscore t c)
        exact if_pos hcond
      rcases ih (some c) (nscore t c) with ⟨heq, hall⟩ | ⟨l1, c', l2, hsplit, heq, h12, hbc, hl1, hl2⟩
      · refine Or.inr ⟨[], c, rest, rfl, ?_, hcond.2, hcond.1, ?_, ?_⟩
        · rw [hstep, heq]
        · intro x hx; simp at hx
        · intro x hx
          have hx2 := hall x hx
          rwa [max_eq_left (le_of_lt hcond.2)] at hx2
      · refine Or.inr ⟨c :: l1, c', l2, by rw [hsplit]; rfl, ?_, h12, lt_trans hcond.1 hbc, ?_, hl2⟩
        · rw [hstep, heq]
        · intro x hx
          rcases List.mem_cons.mp hx with h1 | h1
          · rw [h1]; exact hbc
          · exact hl1 x h1
    · have hstep : fuzzyFold t (c :: rest) (best, b) = fuzzyFold t rest (best, b) := by
        show (if b < nscore t c ∧ (1 / 2 : ℚ) < nscore t c then
            fuzzyFold t rest (some c, nscore t c)
          else fuzzyFold t rest (best, b)) = fuzzyFold t rest (best, b)
        exact if_neg hcond
      have hcle : nscore t c ≤ max b (1 / 2) := by
        rcases not_and_or.mp hcond with h | h
        · exact le_max_of_le_left (not_lt.mp h)
        · exact le_max_of_le_right (not_lt.mp h)
      rcases ih best b with ⟨heq, hall⟩ | ⟨l1, c', l2, hsplit, heq, h12, hbc, hl1, hl2⟩
      · refine Or.inl ⟨by rw [hstep, heq], ?_⟩
        intro x hx
        rcases List.mem_cons.mp hx with h1 | h1
        · rw [h1]; exact hcle
        · exact hall x h1
      · have hcc : nscore t c < nscore t c' := lt_of_le_of_lt hcle (max_lt hbc h12)
        refine Or.inr ⟨c :: l1, c', l2, by rw [hsplit]; rfl, by rw [hstep, heq], h12, hbc, ?_, hl2⟩
        intro x hx
        rcases List.mem_cons.mp hx with h1 | h1
        · rw [h1]; exact hcc
        · exact hl1 x h1

/-- C4: `findFuzzyMatch` tokenizes both sides on whitespace, hyphen and
underscore, scores candidates by word overlap (+2 exact word, +1
containment) normalized by the larger token count, and returns the
candidate with the highest normalized score strictly above 0.5 — first
encountered on ties — or no candidate when none exceeds the threshold. -/
theorem findFuzzyMatch_spec (t : String) (cs : List String) :
    (findFuzzyMatch t cs = none ↔ ∀ x ∈ cs, nscore t x ≤ 1 / 2) ∧
    (∀ c, findFuzzyMatch t cs = some c →
      (1 / 2 : ℚ) < nscore t c ∧ (∀ x ∈ cs, nscore t x ≤ nscore t c) ∧
      ∃ l1 l2, cs = l1 ++ c :: l2 ∧ ∀ x ∈ l1, nscore t x < nscore t c) := by
  have hmax : max (0 : ℚ) (1 / 2) = 1 / 2 := max_eq_right (by norm_num)
  rcases fuzzyFold_char t cs none 0 with ⟨heq, hall⟩ | ⟨l1, c, l2, hsplit, heq, h12, hb0, hl1, hl2⟩
  · constructor
    · constructor
      · intro _ x hx
        have hx2 := hall x hx
        rwa [hmax] at hx2
      · intro _
        unfold findFuzzyMatch
        rw [heq]
    · intro c hc
      unfold findFuzzyMatch at hc
      rw [heq] at hc
      exact absurd hc (by simp)
  · have hres : findFuzzyMatch t cs = some c := by
      unfold findFuzzyMatch
      rw [heq]
    constructor
    · constructor
      · intro h
        rw [hres] at h
        exact absurd h (by simp)
      · intro hall2
        exfalso
        have hc : c ∈ cs := hsplit ▸ List.mem_append_right l1 (List.mem_cons_self c l2)
        exact absurd (hall2 c hc) (not_le.mpr h12)
    · intro c' hc'
      rw [hres] at hc'
      have hcc : c = c' := by injection hc'
      subst hcc
      refine ⟨h12, ?_, l1, l2, hsplit, hl1⟩
      intro x hx
      rw [hsplit] at hx
      rcases List.mem_append.mp hx with h1 | h1
      · exact le_of_lt (hl1 x h1)
      · rcases List.mem_cons.mp h1 with h2 | h2
        · rw [h2]
        · exact hl2 x h2

/-- Witness for C4 at concrete scenario 2 of the spec: the candidate
"Tx New Patients" scores 4/3 against the target "TX_NEW" and is
accepted. -/
theorem findFuzzyMatch_spec_witness :
    (1 / 2 : ℚ) < nscore "TX_NEW" "Tx New Patients" :=
  ((findFuzzyMatch_spec "TX_NEW" ["Tx New Patients"]).2 "Tx New Patients"
    (by with_unfolding_all decide)).1

theorem matchOne_exact {idx : List (String × ℚ)} {k : String} {v : ℚ}
    (h : lookupIdx idx k = some v) : matchOne idx k = (v, "exact") := by
  unfold matchOne
  rw [h]

theorem matchOne_default {idx : List (String × ℚ)} {k : String}
    (h : noStrategyMatch idx k = true) : matchOne idx k = (0, "default") := by
  simp only [noStrategyMatch, Bool.and_eq_true, Option.isNone_iff_eq_none] at h
  obtain ⟨⟨⟨h1, h2⟩, h3⟩, h4⟩ := h
  unfold matchOne
  rw [h1, h2, h3, h4]

/-- C1: the matching loop pushes exactly one dataValues element per
vocabulary entry, whatever the input records were; and a vocabulary key
for which every strategy fails yields the element with matchType
"default" and value 0. -/
theorem generatePayload_cardinality (inp : InputData) (cfg : ReportConfig) (now : String) :
    (generatePayload inp cfg now).dataValues.length = cfg.mapping.length ∧
    ∀ k de, (k, de) ∈ cfg.mapping → noStrategyMatch (buildIndex inp) k = true →
      ({ dataElement := de, period := cfg.period, orgUnit := cfg.orgUnit,
         categoryOptionCombo := cfg.catAttrCombo, attributeOptionCombo := cfg.catAttrCombo,
         value := 0, matchType := "default", originalIndicator := k } : DataValue) ∈
        (generatePayload inp cfg now).dataValues := by
  constructor
  · simp [generatePayload, buildDataValues]
  · intro k de hmem hno
    have hdv : mkDataValue cfg (buildIndex inp) (k, de) =
        { dataElement := de, period := cfg.period, orgUnit := cfg.orgUnit,
          categoryOptionCombo := cfg.catAttrCombo, attributeOptionCombo := cfg.catAttrCombo,
          value := 0, matchType := "default", originalIndicator := k } := by
      simp [mkDataValue, matchOne_default hno]
    have hin : mkDataValue cfg (buildIndex inp) (k, de) ∈ buildDataValues cfg (buildIndex inp) :=
      List.mem_map_of_mem _ hmem
    rw [hdv] at hin
    exact hin

/-- Witness for C1 at concrete scenario 4 of the spec: an empty record
set yields the default element for "TX_NEW", and the output length
equals the vocabulary size. -/
theorem generatePayload_cardinality_witness :
    ({ dataElement := "dwEq7wi6nXV", period := "202506", orgUnit := "rXoaHGAXWy9",
       categoryOptionCombo := "HllvX50cXC0", attributeOptionCombo := "HllvX50cXC0",
       value := 0, matchType := "default", originalIndicator := "TX_NEW" } : DataValue) ∈
      (generatePayload .noData sampleCfg "2025-06-01T00:00:00.000Z").dataValues :=
  (generatePayload_cardinality .noData sampleCfg "2025-06-01T00:00:00.000Z").2
    "TX_NEW" "dwEq7wi6nXV" (by with_unfolding_all decide) (by with_unfolding_all decide)

theorem indexSheetRows_lookup (k : String) :
    ∀ (rows : List SheetRow) (acc : List (String × ℚ)),
      lookupIdx (rows.foldl
        (fun a r => if sheetRowKept r then upsert (sheetRowKey r) (sheetRowVal r) a else a)
        acc) k =
      (match lastMatch k rows with
       | some r => some (sheetRowVal r)
       | none => lookupIdx acc k) := by
  intro rows
  induction rows with
  | nil => intro acc; rfl
  | cons r rest ih =>
    intro acc
    rw [List.foldl_cons, ih]
    cases hl : lastMatch k rest with
    | some r' => simp [lastMatch, hl]
    | none =>
      simp only [lastMatch, hl]
      by_cases hk : sheetRowKept r
      · by_cases hkey : sheetRowKey r = k
        · simp [hk, hkey, lookupIdx_upsert_self]
        · simp [hk, hkey, lookupIdx_upsert_ne _ _ _ _ hkey]
      · simp [hk]

/-- C2 (amended): a record is matched exactly when its index key — the
site-prefixed, trimmed key it is stored under — equals the vocabulary
key; the produced element then carries matchType "exact" and the parsed
value of the last such record in input order. -/
theorem sftp_exact_match (sheets : List (String × List SheetRow)) (cfg : ReportConfig)
    (now : String) (k de : String) (r : SheetRow)
    (hkde : (k, de) ∈ cfg.mapping)
    (hlast : lastMatch k (concatAll (sheets.map Prod.snd)) = some r) :
    ({ dataElement := de, period := cfg.period, orgUnit := cfg.orgUnit,
       categoryOptionCombo := cfg.catAttrCombo, attributeOptionCombo := cfg.catAttrCombo,
       value := sheetRowVal r, matchType := "exact", originalIndicator := k } : DataValue) ∈
      (generatePayload (.sftpExcel sheets) cfg now).dataValues := by
  have hlook : lookupIdx (buildIndex (.sftpExcel sheets)) k = some (sheetRowVal r) := by
    show lookupIdx (indexSheetRows (concatAll (sheets.map Prod.snd))) k = _
    unfold indexSheetRows
    rw [indexSheetRows_lookup k _ [], hlast]
  have hdv : mkDataValue cfg (buildIndex (.sftpExcel sheets)) (k, de) =
      { dataElement := de, period := cfg.period, orgUnit := cfg.orgUnit,
        categoryOptionCombo := cfg.catAttrCombo, attributeOptionCombo := cfg.catAttrCombo,
        value := sheetRowVal r, matchType := "exact", originalIndicator := k } := by
    simp [mkDataValue, matchOne_exact hlook]
  have hin : mkDataValue cfg (buildIndex (.sftpExcel sheets)) (k, de) ∈
      buildDataValues cfg (buildIndex (.sftpExcel sheets)) :=
    List.mem_map_of_mem _ hkde
  rw [hdv] at hin
  exact hin

/-- Witness for C2 at concrete scenario 1 of the spec: the record
`{indicator: "TX_NEW", value: 85}` with no site produces the exact-match
element with value 85. -/
theorem sftp_exact_match_witness :
    ({ dataElement := "dwEq7wi6nXV", period := "202506", orgUnit := "rXoaHGAXWy9",
       categoryOptionCombo := "HllvX50cXC0", attributeOptionCombo := "HllvX50cXC0",
       value := 85, matchType := "exact", originalIndicator := "TX_NEW" } : DataValue) ∈
      (generatePayload (.sftpExcel [("HIV INDICATORS", [scenario1Row])]) sampleCfg
        "2025-06-01T00:00:00.000Z").dataValues :=
  sftp_exact_match [("HIV INDICATORS", [scenario1Row])] sampleCfg "2025-06-01T00:00:00.000Z"
    "TX_NEW" "dwEq7wi6nXV" scenario1Row (by with_unfolding_all decide)
    (by with_unfolding_all decide)

/-- C2 counterexample: a record whose indicator name equals the
vocabulary key "TX_NEW" but carries a site is stored under the
site-prefixed key, so its element is produced with matchType "partial",
not "exact". -/
theorem sftp_exact_match_counterexample :
    sitePrefixedRow.indicator = "TX_NEW" ∧ ("TX_NEW", "dwEq7wi6nXV") ∈ sampleCfg.mapping ∧
    (generatePayload (.sftpExcel [("DIRECT QUERIES", [sitePrefixedRow])]) sampleCfg
      "2025-06-01T00:00:00.000Z").dataValues.map DataValue.matchType = ["partial"] := by
  with_unfolding_all decide

/-- C3: on the part_003 duplicate-indicator input, the later record
carries value 5 but the observed-value index keeps the larger earlier
value 7: the index is not last-record-wins in the part_003 indicators
branch, although its own comment announces "use the most recent value". -/
theorem p3Index_not_last_wins :
    lookupIdx (p3Index dupIndicatorFiles) "K" = some 7 ∧
    lookupIdx (p3Index dupIndicatorFiles) "K" ≠ some (jsNumOr0 (jvParseFloat (JVal.num 5))) := by
  with_unfolding_all decide

/-- C5 (amended): every payload field except the `generatedAt`
timestamp is a function of the vocabulary, coordinates and record set
alone: two runs over the same inputs agree on all of them. -/
theorem generatePayload_deterministic (inp : InputData) (cfg : ReportConfig) (n1 n2 : String) :
    (generatePayload inp cfg n1).dataSet = (generatePayload inp cfg n2).dataSet ∧
    (generatePayload inp cfg n1).period = (generatePayload inp cfg n2).period ∧
    (generatePayload inp cfg n1).orgUnit = (generatePayload inp cfg n2).orgUnit ∧
    (generatePayload inp cfg n1).dataValues = (generatePayload inp cfg n2).dataValues ∧
    (generatePayload inp cfg n1).dataSource = (generatePayload inp cfg n2).dataSource ∧
    (generatePayload inp cfg n1).matchingStats = (generatePayload inp cfg n2).matchingStats :=
  ⟨rfl, rfl, rfl, rfl, rfl, rfl⟩

/-- C5 counterexample: the payload embeds the wall-clock reading in its
`generatedAt` field, so two runs of the generator over identical inputs
at different instants produce unequal payloads. -/
theorem generatePayload_clock_dependence :
    generatePayload .noData sampleCfg "2025-06-01T00:00:00.000Z" ≠
      generatePayload .noData sampleCfg "2025-06-02T00:00:00.000Z" := by
  with_unfolding_all decide

theorem newFilesOf_eq (prev : List (String × TrackRec)) :
    ∀ listing : List ListedFile,
      newFilesOf prev listing =
        (listing.filter (fun f => passesFilter f && isNewOrChanged prev f)).map fileInfoOf := by
  intro listing
  induction listing with
  | nil => rfl
  | cons f rest ih =>
    by_cases h : (passesFilter f && isNewOrChanged prev f) = true
    · simp [newFilesOf, List.filter_cons, h, ih]
    · simp [newFilesOf, List.filter_cons, h, ih]

theorem isNewOrChanged_iff (prev : List (String × TrackRec)) (f : ListedFile) :
    isNewOrChanged prev f = true ↔
      lookupIdx prev f.name = none ∨
        ∃ r, lookupIdx prev f.name = some r ∧
          (r.size ≠ f.size ∨ r.modifiedTime ≠ f.modifiedTime) := by
  unfold isNewOrChanged
  cases h : lookupIdx prev f.name with
  | none => simp
  | some p =>
    simp only [h, Bool.or_eq_true, bne_iff_ne]
    constructor
    · rintro (hm | hs)
      · exact Or.inr ⟨p, rfl, Or.inr hm⟩
      · exact Or.inr ⟨p, rfl, Or.inl hs⟩
    · rintro (hnone | ⟨r, hr, hd⟩)
      · cases hnone
      · have hrp : p = r := by injection hr
        subst hrp
        rcases hd with hd | hd
        · exact Or.inr hd
        · exact Or.inl hd

/-- C6: a listed file that reaches the classification test is put in the
new-file set exactly when it is untracked or its size or modified time
differs from the stored record; a tracked file whose size and modified
time both match is never put there. -/
theorem classify_newOrChanged (listing : List ListedFile) (prev : List (String × TrackRec))
    (f : ListedFile) (hmem : f ∈ listing) (hty : f.ftype = "file")
    (hext : supportedName f.name = true) :
    (fileInfoOf f ∈ newFilesOf prev listing ↔
      (lookupIdx prev f.name = none ∨
        ∃ r, lookupIdx prev f.name = some r ∧
          (r.size ≠ f.size ∨ r.modifiedTime ≠ f.modifiedTime))) ∧
    (∀ r, lookupIdx prev f.name = some r → r.size = f.size → r.modifiedTime = f.modifiedTime →
      fileInfoOf f ∉ newFilesOf prev listing) := by
  have hpass : passesFilter f = true := by
    unfold passesFilter
    rw [hty]
    simp [hext]
  have hiff : fileInfoOf f ∈ newFilesOf prev listing ↔ isNewOrChanged prev f = true := by
    rw [newFilesOf_eq]
    constructor
    · intro hx
      obtain ⟨g, hg, hfx⟩ := List.mem_map.mp hx
      have hgf := List.mem_filter.mp hg
      have hname : g.name = f.name := congrArg FileInfo.name hfx
      have hsize : g.size = f.size := congrArg FileInfo.size hfx
      have hmt : g.modifiedTime = f.modifiedTime := congrArg FileInfo.modifiedTime hfx
      have hnew : isNewOrChanged prev g = true := ((Bool.and_eq_true _ _).mp hgf.2).2
      unfold isNewOrChanged at hnew ⊢
      rw [hname, hsize, hmt] at hnew
      exact hnew
    · intro hnew
      exact List.mem_map.mpr ⟨f, List.mem_filter.mpr ⟨hmem, by simp [hpass, hnew]⟩, rfl⟩
  refine ⟨hiff.trans (isNewOrChanged_iff prev f), ?_⟩
  intro r hr hs hm hmem2
  rcases (hiff.trans (isNewOrChanged_iff prev f)).mp hmem2 with hnone | ⟨r', hr', hd⟩
  · rw [hr] at hnone
    cases hnone
  · rw [hr] at hr'
    have : r = r' := by injection hr'
    subst this
    rcases hd with h | h
    · exact h hs
    · exact h hm

/-- Witness for C6 at concrete scenario 5 of the spec: "a.xlsx" tracked
with size 100 re-appears with size 150 and is classified new/changed. -/
theorem classify_newOrChanged_witness :
    fileInfoOf grownAxlsx ∈ newFilesOf knownAxlsx [grownAxlsx] :=
  ((classify_newOrChanged [grownAxlsx] knownAxlsx grownAxlsx
      (by with_unfolding_all decide) (by with_unfolding_all decide)
      (by with_unfolding_all decide)).1).mpr
    (Or.inr ⟨{ name := "a.xlsx", size := 100, modifiedTime := "T1"
               path := "/uploads/hiv-indicators/a.xlsx" },
      by with_unfolding_all decide, Or.inl (by with_unfolding_all decide)⟩)

/-- C8: when the upload did not complete, the tracking update leaves the
persisted file-tracking map exactly as it was — no entry is added,
updated or pruned. -/
theorem updateFileTracking_incomplete (ft : List (String × TrackRec)) (pf : List FileInfo)
    (cfl : List (String × FileInfo)) (us : Option USummary) (now : Nat) :
    updateFileTracking false ft pf cfl us now = ft := rfl

theorem lookupIdx_foldl_commit_ne (us : Option USummary) (now : Nat) (nm : String) :
    ∀ (pf : List FileInfo) (m : List (String × TrackRec)),
      (∀ g ∈ pf, g.name ≠ nm) →
      lookupIdx (pf.foldl (fun acc f => upsert f.name (trackingInfoOf us now f) acc) m) nm =
        lookupIdx m nm := by
  intro pf
  induction pf with
  | nil => intro m _; rfl
  | cons g rest ih =>
    intro m hall
    rw [List.foldl_cons, ih _ (fun x hx => hall x (List.mem_cons_of_mem g hx)),
      lookupIdx_upsert_ne _ _ _ _ (hall g (List.mem_cons_self g rest))]

theorem lookupIdx_foldl_commit (us : Option USummary) (now : Nat) (nm : String)
    (sz : Int) (mt : String) :
    ∀ (pf : List FileInfo) (m : List (String × TrackRec)),
      (∃ g ∈ pf, g.name = nm) →
      (∀ g ∈ pf, g.name = nm → g.size = sz ∧ g.modifiedTime = mt) →
      ∃ r, lookupIdx (pf.foldl (fun acc f => upsert f.name (trackingInfoOf us now f) acc) m) nm
          = some r ∧ r.size = sz ∧ r.modifiedTime = mt ∧ r.processedAt = some now := by
  intro pf
  induction pf with
  | nil =>
    rintro m ⟨g, hg, _⟩
    simp at hg
  | cons g rest ih =>
    intro m hex hall
    by_cases hrest : ∃ x ∈ rest, x.name = nm
    · exact ih _ hrest (fun x hx hnx => hall x (List.mem_cons_of_mem g hx) hnx)
    · have hg : g.name = nm := by
        obtain ⟨x, hx, hnx⟩ := hex
        rcases List.mem_cons.mp hx with h1 | h1
        · rw [← h1]
          exact hnx
        · exact absurd ⟨x, h1, hnx⟩ hrest
      push_neg at hrest
      rw [List.foldl_cons, lookupIdx_foldl_commit_ne us now nm rest _ hrest, hg,
        lookupIdx_upsert_self]
      exact ⟨trackingInfoOf us now g, rfl, (hall g (List.mem_cons_self g rest) hg).1,
        (hall g (List.mem_cons_self g rest) hg).2, rfl⟩

theorem lookupIdx_foldl_checked (now : Nat) (nm : String) (r : TrackRec) :
    ∀ (cfl : List (String × FileInfo)) (m : List (String × TrackRec)),
      lookupIdx m nm = some r →
      lookupIdx (cfl.foldl (fun acc p =>
        match lookupIdx acc p.1 with
        | some _ => acc
        | none => upsert p.1 (checkedInfoOf now p.2) acc) m) nm = some r := by
  intro cfl
  induction cfl with
  | nil => intro m h; exact h
  | cons p rest ih =>
    intro m h
    rw [List.foldl_cons]
    apply ih
    by_cases hp : p.1 = nm
    · rw [hp, h]
      exact h
    · cases hl : lookupIdx m p.1 with
      | some q => exact h
      | none =>
        rw [lookupIdx_upsert_ne _ _ _ _ hp]
        exact h

theorem lookupIdx_filter {α : Type} (p : String × α → Bool) :
    ∀ (m : List (String × α)) (nm : String) (r : α),
      lookupIdx m nm = some r → p (nm, r) = true →
      lookupIdx (m.filter p) nm = some r := by
  intro m
  induction m with
  | nil =>
    intro nm r h
    cases h
  | cons q rest ih =>
    intro nm r h hp
    by_cases hq : q.1 = nm
    · have hq2 : q.2 = r := by
        unfold lookupIdx at h
        rw [if_pos hq] at h
        injection h
      have hqr : q = (nm, r) := Prod.ext hq hq2
      rw [List.filter_cons, hqr, if_pos hp]
      unfold lookupIdx
      rw [if_pos rfl]
    · have h2 : lookupIdx rest nm = some r := by
        unfold lookupIdx at h
        rwa [if_neg hq] at h
      rw [List.filter_cons]
      by_cases hkeep : p q = true
      · rw [if_pos hkeep]
        unfold lookupIdx
        rw [if_neg hq]
        exact ih nm r h2 hp
      · rw [if_neg hkeep]
        exact ih nm r h2 hp

/-- C7: after a completed run commits the name, size and modified time
of a processed file, re-classifying a listing in which that file appears
unchanged does not place it in the new-file set. -/
theorem commit_then_classify (ft : List (String × TrackRec)) (pf : List FileInfo)
    (cfl : List (String × FileInfo)) (us : Option USummary) (now : Nat)
    (listing : List ListedFile) (f : FileInfo) (lf : ListedFile)
    (hex : ∃ g ∈ pf, g.name = f.name)
    (hagree : ∀ g ∈ pf, g.name = f.name → g.size = f.size ∧ g.modifiedTime = f.modifiedTime)
    (hn : lf.name = f.name) (hs : lf.size = f.size) (hm : lf.modifiedTime = f.modifiedTime) :
    fileInfoOf lf ∉ newFilesOf (updateFileTracking true ft pf cfl us now) listing := by
  obtain ⟨r, hr, hrs, hrm, hrp⟩ :=
    lookupIdx_foldl_commit us now f.name f.size f.modifiedTime pf ft hex hagree
  have hr2 := lookupIdx_foldl_checked now f.name r cfl _ hr
  have htd : trackDate r = now := by
    unfold trackDate
    rw [hrp]
  have hkeep : decide (now - retentionMs ≤ trackDate r) = true := by
    rw [htd]
    exact decide_eq_true (Nat.sub_le now retentionMs)
  have hr3 : lookupIdx (updateFileTracking true ft pf cfl us now) f.name = some r :=
    lookupIdx_filter _ _ _ _ hr2 hkeep
  intro hmem
  rw [newFilesOf_eq] at hmem
  obtain ⟨g, hg, hfx⟩ := List.mem_map.mp hmem
  have hgf := List.mem_filter.mp hg
  have hnew : isNewOrChanged (updateFileTracking true ft pf cfl us now) g = true :=
    ((Bool.and_eq_true _ _).mp hgf.2).2
  have hname : g.name = lf.name := congrArg FileInfo.name hfx
  have hsize : g.size = lf.size := congrArg FileInfo.size hfx
  have hmt : g.modifiedTime = lf.modifiedTime := congrArg FileInfo.modifiedTime hfx
  unfold isNewOrChanged at hnew
  rw [hname, hn, hr3] at hnew
  rw [Bool.or_eq_true, bne_iff_ne, bne_iff_ne] at hnew
  rcases hnew with h1 | h1
  · exact h1 (by rw [hrm, ← hm, ← hmt])
  · exact h1 (by rw [hrs, ← hs, ← hsize])

/-- Witness for C7: the committed file "b.xlsx" re-listed with the same
size and modified time is not classified new/changed. -/
theorem commit_then_classify_witness :
    fileInfoOf relistedBxlsx ∉
      newFilesOf (updateFileTracking true [] [processedBxlsx] [] none 1000) [relistedBxlsx] :=
  commit_then_classify [] [processedBxlsx] [] none 1000 [relistedBxlsx] processedBxlsx
    relistedBxlsx (by with_unfolding_all decide) (by with_unfolding_all decide)
    (by with_unfolding_all decide) (by with_unfolding_all decide) (by with_unfolding_all decide)

theorem listIsPre_iff {α : Type} [DecidableEq α] :
    ∀ (a b : List α), listIsPre a b = true ↔ a <+: b := by
  intro a
  induction a with
  | nil =>
    intro b
    simp [listIsPre]
  | cons x as ih =>
    intro b
    cases b with
    | nil => simp [listIsPre]
    | cons y bs =>
      simp [listIsPre, List.cons_prefix_cons, ih bs]

theorem listIsSuf_iff {α : Type} [DecidableEq α] (a b : List α) :
    listIsSuf a b = true ↔ a <:+ b := by
  unfold listIsSuf
  rw [listIsPre_iff]
  exact List.reverse_prefix

theorem dropWhile_head_false {α : Type} (p : α → Bool) :
    ∀ (xs : List α) (c : α) (d : List α), xs.dropWhile p = c :: d → p c = false := by
  intro xs
  induction xs with
  | nil =>
    intro c d h
    cases h
  | cons x rest ih =>
    intro c d h
    rw [List.dropWhile_cons] at h
    by_cases hp : p x = true
    · rw [if_pos hp] at h
      exact ih c d h
    · rw [if_neg hp] at h
      injection h with h1 _
      rw [← h1]
      exact Bool.eq_false_iff.mpr hp

theorem extOf_suffix (name : String) : (extOf name).data <:+ (lowerStr name).data := by
  have main : ∀ (L : List Char),
      (if (L.reverse.takeWhile (fun c => decide (c ≠ '.'))).length = L.length
        then String.mk L
        else String.mk ('.' :: (L.reverse.takeWhile (fun c => decide (c ≠ '.'))).reverse)).data
        <:+ L := by
    intro L
    by_cases h : (L.reverse.takeWhile (fun c => decide (c ≠ '.'))).length = L.length
    · rw [if_pos h]
    · rw [if_neg h]
      generalize htw : L.reverse.takeWhile (fun c => decide (c ≠ '.')) = tw at h ⊢
      cases hd : L.reverse.dropWhile (fun c => decide (c ≠ '.')) with
      | nil =>
        exfalso
        apply h
        have happ := List.takeWhile_append_dropWhile
          (p := fun c => decide (c ≠ '.')) (l := L.reverse)
        rw [htw, hd, List.append_nil] at happ
        rw [happ, List.length_reverse]
      | cons c d =>
        have hc : c = '.' := by simpa using dropWhile_head_false _ L.reverse c d hd
        have hsplit : L.reverse = tw ++ c :: d := by
          conv_lhs => rw [← List.takeWhile_append_dropWhile
            (p := fun c => decide (c ≠ '.')) (l := L.reverse)]
          rw [htw, hd]
        have hback : L = d.reverse ++ ('.' :: tw.reverse) := by
          have h2 := congrArg List.reverse hsplit
          rw [List.reverse_reverse, List.reverse_append, List.reverse_cons, hc] at h2
          rw [h2, List.append_assoc]
          rfl
        exact ⟨d.reverse, hback.symm⟩
  exact main (lowerStr name).data

theorem supportedName_suffix {name : String} (h : supportedName name = true) :
    listIsSuf ".xlsx".data (lowerStr name).data = true ∨
      listIsSuf ".xls".data (lowerStr name).data = true := by
  have hx : extOf name = ".xlsx" ∨ extOf name = ".xls" := by
    unfold supportedName supportedExtensions at h
    simpa using h
  have hsuf := extOf_suffix name
  rcases hx with h1 | h1
  · left
    rw [← h1]
    exact (listIsSuf_iff _ _).mpr hsuf
  · right
    rw [← h1]
    exact (listIsSuf_iff _ _).mpr hsuf

theorem mem_currentFilesOf :
    ∀ (listing : List ListedFile) (acc : List (String × FileInfo)) (p : String × FileInfo),
      p ∈ listing.foldl
        (fun a f => if passesFilter f then upsert f.name (fileInfoOf f) a else a) acc →
      p ∈ acc ∨ ∃ f, f ∈ listing ∧ passesFilter f = true ∧ p = (f.name, fileInfoOf f) := by
  intro listing
  induction listing with
  | nil =>
    intro acc p h
    exact Or.inl h
  | cons f rest ih =>
    intro acc p h
    rw [List.foldl_cons] at h
    rcases ih _ p h with h1 | ⟨g, hg, hp1, hp2⟩
    · by_cases hf : passesFilter f = true
      · rw [if_pos hf] at h1
        rcases mem_upsert h1 with h2 | h2
        · exact Or.inr ⟨f, List.mem_cons_self f rest, hf, h2⟩
        · exact Or.inl h2
      · rw [if_neg hf] at h1
        exact Or.inl h1
    · exact Or.inr ⟨g, List.mem_cons_of_mem f hg, hp1, hp2⟩

/-- C10: only listing entries of type "file" whose name ends
case-insensitively in ".xlsx" or ".xls" can appear in the new-file set
or in the current-file map; anything else is never classified or
tracked. -/
theorem extension_filter_invariant (prev : List (String × TrackRec))
    (listing : List ListedFile) (x : FileInfo)
    (h : x ∈ newFilesOf prev listing ∨ ∃ k, (k, x) ∈ currentFilesOf listing) :
    ∃ f, f ∈ listing ∧ f.ftype = "file" ∧
      (listIsSuf ".xlsx".data (lowerStr f.name).data = true ∨
        listIsSuf ".xls".data (lowerStr f.name).data = true) ∧ x = fileInfoOf f := by
  have key : ∀ (f : ListedFile), passesFilter f = true →
      f.ftype = "file" ∧ (listIsSuf ".xlsx".data (lowerStr f.name).data = true ∨
        listIsSuf ".xls".data (lowerStr f.name).data = true) := by
    intro f hf
    unfold passesFilter at hf
    rw [Bool.and_eq_true] at hf
    exact ⟨by simpa using hf.1, supportedName_suffix hf.2⟩
  rcases h with h | ⟨k, h⟩
  · rw [newFilesOf_eq] at h
    obtain ⟨g, hg, hfx⟩ := List.mem_map.mp h
    have hgf := List.mem_filter.mp hg
    have hp := ((Bool.and_eq_true _ _).mp hgf.2).1
    obtain ⟨h1, h2⟩ := key g hp
    exact ⟨g, hgf.1, h1, h2, hfx.symm⟩
  · unfold currentFilesOf at h
    rcases mem_currentFilesOf listing [] (k, x) h with h1 | ⟨g, hg, hp, he⟩
    · simp at h1
    · obtain ⟨h1, h2⟩ := key g hp
      exact ⟨g, hg, h1, h2, congrArg Prod.snd he⟩

/-- Witness for C10: the upper-cased listing entry "C.XLSX" appears in
the new-file set and indeed carries a supported extension. -/
theorem extension_filter_invariant_witness :
    ∃ f, f ∈ [listedCxlsx] ∧ f.ftype = "file" ∧
      (listIsSuf ".xlsx".data (lowerStr f.name).data = true ∨
        listIsSuf ".xls".data (lowerStr f.name).data = true) ∧
      fileInfoOf listedCxlsx = fileInfoOf f :=
  extension_filter_invariant [] [listedCxlsx] (fileInfoOf listedCxlsx)
    (Or.inl (by with_unfolding_all decide))

/-- C9 (amended): a workbook with zero data rows normalizes to an empty
record list, an empty warning list, and no exception (the embedded
parse is total); however the validation step does flag the empty sheet:
errors contains "No data found in Excel file" and isValid is false. -/
theorem emptyWorkbook_normalize (rawData : List (List JVal))
    (h : rawData.drop (findHeaderIdx rawData + 1) = []) :
    (processDirectQueries rawData).queries = [] ∧
    (processDirectQueries rawData).validation.warnings = [] ∧
    (processDirectQueries rawData).validation.errors = ["No data found in Excel file"] ∧
    (processDirectQueries rawData).validation.isValid = false := by
  have hq : parseDirectQueries rawData = [] := by
    unfold parseDirectQueries
    by_cases h0 : rawData.length = 0
    · rw [if_pos h0]
    · rw [if_neg h0]
      show ((rawData.drop (findHeaderIdx rawData + 1)).enum).filterMap
          (fun p => mkQueryRow (buildHeaderMap (rawData.getD (findHeaderIdx rawData) [])) p.1 p.2)
          = []
      rw [h]
      rfl
  refine ⟨?_, ?_, ?_, ?_⟩ <;>
    simp [processDirectQueries, hq, validateExcelData, concatAll]

/-- Witness for C9 at a workbook with a header row and zero data rows. -/
theorem emptyWorkbook_normalize_witness :
    (processDirectQueries [[JVal.str "Site"]]).queries = [] ∧
    (processDirectQueries [[JVal.str "Site"]]).validation.warnings = [] ∧
    (processDirectQueries [[JVal.str "Site"]]).validation.errors =
      ["No data found in Excel file"] ∧
    (processDirectQueries [[JVal.str "Site"]]).validation.isValid = false :=
  emptyWorkbook_normalize [[JVal.str "Site"]] (by with_unfolding_all decide)

/-- C9 counterexample: the empty workbook is recorded as a validation
error — `validateExcelData` pushes "No data found in Excel file" and
clears isValid — so "an empty sheet is not an error" fails on the code,
even though records and warnings are empty and nothing is thrown. -/
theorem emptyWorkbook_flagged_error :
    (processDirectQueries []).validation.isValid = false ∧
    (processDirectQueries []).validation.errors = ["No data found in Excel file"] := by
  with_unfolding_all decide
